import Mathlib

/-!
Shallow embedding of the validation/fix orchestration core of the
vscode-phpsab extension (files `src/errors.ts` and `src/sniffer.ts`,
the latter bundling the sniffer close handler and the fixer `format`
function).  JavaScript strings are modelled as Lean `String`s, the
string primitives `includes`, `startsWith`, `trim` and first-occurrence
`replace` are re-implemented on `List Char`, machine numbers are `Int`,
`null`/`undefined` become `Option`, and the filesystem read performed by
`isStandardDisabled` is an explicit environment `String → FileState`.
Logging is modelled as an explicit list of emitted messages.
-/

set_option maxRecDepth 8000

namespace Phpsab

/-- Occurrence test on character lists: does `pat` occur as a contiguous
sublist of the second argument?  Embeds JS `String.prototype.includes`. -/
def occursIn (pat : List Char) : List Char → Bool
  | [] => pat.isEmpty
  | c :: rest => pat.isPrefixOf (c :: rest) || occursIn pat rest

/-- JS `haystack.includes(needle)`. -/
def jsIncludes (s sub : String) : Bool := occursIn sub.toList s.toList

/-- JS `s.startsWith(pre)`. -/
def jsStartsWith (s pre : String) : Bool := pre.toList.isPrefixOf s.toList

/-- JS whitespace test for `trim` (the characters this code can meet). -/
def isJsWhitespace (c : Char) : Bool :=
  c = ' ' || c = '\n' || c = '\t' || c = '\r'

/-- JS `s.trim()`: strip whitespace from both ends. -/
def jsTrim (s : String) : String :=
  String.mk (((s.toList.dropWhile isJsWhitespace).reverse.dropWhile
    isJsWhitespace).reverse)

/-- Remove the first occurrence of `pat` (replacement by the empty string),
as the JS string replace with an empty replacement does. -/
def removeFirstList (pat : List Char) : List Char → List Char
  | [] => []
  | c :: rest =>
      if pat.isPrefixOf (c :: rest) then (c :: rest).drop pat.length
      else c :: removeFirstList pat rest

/-- JS string replace with an empty replacement: first occurrence only. -/
def jsRemoveFirst (s pat : String) : String :=
  String.mk (removeFirstList pat.toList s.toList)

/-- A JavaScript exit-code value as used in `errors.ts`: the tables mix
numbers and the string sentinel `"-1"`. -/
inductive JSCode where
  | num (n : Int)
  | str (s : String)
deriving DecidableEq, Repr

/-- JS property-key coercion: a number key is its decimal string. -/
def jsKey : JSCode → String
  | .num n => toString n
  | .str s => s

/-- The two tool modes taken by `getMappedExitCode` / `getErrorMsg`. -/
inductive ToolType where
  | fixer
  | sniffer
deriving DecidableEq, Repr

/-- The two tool modes taken by `isStandardDisabled` (phpcs = validator,
phpcbf = fixer). -/
inductive Tool2 where
  | phpcs
  | phpcbf
deriving DecidableEq, Repr

/-- The null-coalescing assignment in `getMappedExitCode`: a `null` exit
status becomes the string sentinel `"-1"`. -/
def codeOrSentinel : Option Int → JSCode
  | none => .str "-1"
  | some n => .num n

/-- The mutable `errorMsgs` table of `errors.ts`, as an association list
keyed by the JS property key. -/
def ErrTable := List (String × String)

/-- Association-list lookup (JS object property read; `none` is
`undefined`). -/
def tableLookup : ErrTable → String → Option String
  | [], _ => none
  | (k, v) :: rest, key => if k = key then some v else tableLookup rest key

/-- Association-list update (JS object property write). -/
def tableSet : ErrTable → String → String → ErrTable
  | [], key, v => [(key, v)]
  | (k, w) :: rest, key, v =>
      if k = key then (key, v) :: rest else (k, w) :: tableSet rest key v

/-- Initial contents of the `errorMsgs` table (`errors.ts` lines 31-45). -/
def errorMsgs : ErrTable :=
  [("-1", ""),
   ("0", "No errors were found"),
   ("1", "Auto-fixable errors were found"),
   ("2", "Non-auto-fixable errors were found"),
   ("3", "Auto-fixable and non-auto-fixable errors were found"),
   ("4", "Failed to fix some files or conflict between sniffs"),
   ("5", "Failed to fix some auto-fixable errors"),
   ("7", "Failed to fix some auto-fixable errors with a mixture of non-auto-fixable"),
   ("16", "Processing error")]

/-- Embeds `getErrorMsg` (`errors.ts` lines 129-139).  The shared table is passed
and returned explicitly: the function first overwrites entry `0` when the
type is `fixer`, then reads the entry for `status` from the updated table. -/
def getErrorMsg (tbl : ErrTable) (status : JSCode) (t : ToolType) :
    Option String × ErrTable :=
  let tbl' :=
    if t = .fixer then
      tableSet tbl "0" "No errors were found or all errors were fixed"
    else tbl
  (tableLookup tbl' (jsKey status), tbl')

/-- The 3.x → 4.x status table built in `getMappedExitCode` for a legacy
sniffer version (`errors.ts` lines 100-112), including the fixer
adjustment `status[1] = 0; status[2] = 5`. -/
def legacy3xStatus (t : ToolType) (key : String) : Option JSCode :=
  if key = "-1" then some (.str "-1")
  else if key = "0" then some (.num 0)
  else if key = "1" then some (.num (if t = .fixer then 0 else 2))
  else if key = "2" then some (.num (if t = .fixer then 5 else 1))
  else if key = "3" then some (.num 16)
  else none

/-- The 4.x status table built by `map4xStatusFromErrors` (`errors.ts`
lines 56-64): each key of `errorMsgs` maps to itself coerced to a number
when numeric (JS Number of "-1" is -1, so even the "-1" key yields the
number `-1`). -/
def status4x (key : String) : Option JSCode :=
  if key = "-1" then some (.num (-1))
  else if key = "0" then some (.num 0)
  else if key = "1" then some (.num 1)
  else if key = "2" then some (.num 2)
  else if key = "3" then some (.num 3)
  else if key = "4" then some (.num 4)
  else if key = "5" then some (.num 5)
  else if key = "7" then some (.num 7)
  else if key = "16" then some (.num 16)
  else none

/-- Embeds `getMappedExitCode` (`errors.ts` lines 73-118).  The sniffer version
string (`undefined` = `none`) is passed explicitly; the second component
collects the messages sent to the logger. -/
def getMappedExitCode (ver : Option String) (code : Option Int)
    (t : ToolType) : JSCode × List String :=
  let c := codeOrSentinel code
  match ver with
  | none => (c, ["Unable to determine sniffer version"])
  | some v =>
      let statusLookup : String → Option JSCode :=
        if jsStartsWith v "4." then status4x
        else if jsStartsWith v "3." then legacy3xStatus t
        else fun _ => none
      ((statusLookup (jsKey c)).getD c, [])

/-- State of the ruleset file as seen by `isStandardDisabled`:
absent (`fs.existsSync` false), unreadable (`fs.readFileSync` throws),
or readable with the given content. -/
inductive FileState where
  | absent
  | unreadable
  | content (s : String)
deriving DecidableEq

/-- Embeds `hasNoSniffsError` (`errors.ts` lines 207-212). -/
def hasNoSniffsError (stdout stderr : String) : Bool :=
  jsIncludes stdout "No sniffs were registered" ||
  jsIncludes stderr "No sniffs were registered"

/-- The attribute values whose presence in the ruleset content disables
the queried tool (`errors.ts` lines 169-175). -/
def disablingAttrs : Tool2 → List String
  | .phpcs => ["phpcs-only=\"false\"", "phpcbf-only=\"true\""]
  | .phpcbf => ["phpcs-only=\"true\"", "phpcbf-only=\"false\""]

/-- Embeds `isStandardDisabled` (`errors.ts` lines 152-195) over an explicit
filesystem; the second component collects logger messages (the read
failure log of the catch branch). -/
def isStandardDisabled (fs : String → FileState) (standard : String)
    (t : Tool2) (stdout stderr : String) : Bool × List String :=
  if standard = "" then (false, [])
  else
    match fs standard with
    | .unreadable => (false, ["Could not read standard file: " ++ standard])
    | .absent => (false, [])
    | .content c =>
        let isDisabled := (disablingAttrs t).any (fun a => jsIncludes c a)
        (isDisabled && hasNoSniffsError stdout stderr, [])

/-- Lower-case tool name used in command/help text. -/
def toolName : Tool2 → String
  | .phpcs => "phpcs"
  | .phpcbf => "phpcbf"

/-- Upper-cased tool name (`type.toUpperCase()`). -/
def toolUpper : Tool2 → String
  | .phpcs => "PHPCS"
  | .phpcbf => "PHPCBF"

/-- The other tool, upper-cased (`errors.ts` line 232). -/
def otherToolUpper : Tool2 → String
  | .phpcs => "PHPCBF"
  | .phpcbf => "PHPCS"

/-- Embeds `getStandardDisabledErrorMsg` (`errors.ts` lines 224-245). -/
def getStandardDisabledErrorMsg (standard : String) (t : Tool2)
    (stdout stderr : String) : String :=
  let output := if stdout ≠ "" then stdout else stderr
  let typeUpperCase := toolUpper t
  let e1 := typeUpperCase ++ " is disabled for the coding standard (\"" ++
    standard ++ "\"), and is configured to be " ++ otherToolUpper t ++
    "-only. It either has the attribute \x27phpcs-only\x27 or \x27phpcbf-only\x27 set to \x27true\x27 or \x27false\x27.\n"
  let e2 := e1 ++ "\n" ++ typeUpperCase ++ " "
  let e3 := e2 ++ jsRemoveFirst output
    ("\nRun \"" ++ toolName t ++ " --help\" for usage information")
  jsTrim e3

/-- One message of the phpcs JSON report (interface `PHPCSReport`). -/
structure PHPCSMessage where
  message : String
  line : Int
  column : Int
  msgType : String
  source : String
  fixable : Bool
deriving DecidableEq, Repr

/-- One file entry of the report: its list of messages. -/
structure PHPCSFile where
  messages : List PHPCSMessage
deriving DecidableEq, Repr

/-- The parsed report: `files` is a JS object, modelled as the ordered
list of its key/value pairs as `for ... in` enumerates them. -/
structure PHPCSReport where
  files : List (String × PHPCSFile)
deriving DecidableEq, Repr

/-- A published range; `Range` is built with the same position repeated
for start and end (`sniffer.ts` lines 529-534). -/
structure SRange where
  startLine : Int
  startChar : Int
  endLine : Int
  endChar : Int
deriving DecidableEq, Repr

/-- Diagnostic severity. -/
inductive Severity where
  | error
  | warning
deriving DecidableEq, Repr

/-- A published diagnostic (`new Diagnostic(range, output, severity)` with
`diagnostic.source` set to phpcs). -/
structure Diagnostic where
  range : SRange
  message : String
  severity : Severity
  source : String
deriving DecidableEq, Repr

/-- The diagnostic built for one report message
(`sniffer.ts` lines 524-546): 1-based line/column become 0-based, the
severity is `Error` exactly for message type `ERROR`, the source id is
appended when `snifferShowSources` is set, and the fixability marker is
always appended. -/
def diagOfMessage (showSources : Bool) (m : PHPCSMessage) : Diagnostic :=
  { range := ⟨m.line - 1, m.column - 1, m.line - 1, m.column - 1⟩
    message := m.message ++
      (if showSources then "\n(" ++ m.source ++ ")" else "") ++
      "\nAuto-fixable: " ++ (if m.fixable then "✔️" else "❌")
    severity := if m.msgType = "ERROR" then .error else .warning
    source := "phpcs" }

/-- The diagnostics pushed by the nested report loop
(`sniffer.ts` lines 522-549): every message of every file entry, in
order. -/
def buildDiagnostics (report : PHPCSReport) (showSources : Bool) :
    List Diagnostic :=
  report.files.foldl
    (fun acc f => acc ++ f.2.messages.map (diagOfMessage showSources)) []

/-- The report messages flattened in traversal order (specification-side
helper used to state the correspondence theorem). -/
def allMessages (report : PHPCSReport) : List PHPCSMessage :=
  report.files.foldl (fun acc f => acc ++ f.2.messages) []

/-- Input of one run of the sniffer `close` handler
(`sniffer.ts` lines 496-583).  `parse` is the outcome of
`JSON.parse(stdout)` plus the typed traversal: `some report` when the
try block completes, `none` when it throws, in which case `parseErrMsg`
is the `toString()` of the thrown error. -/
structure CloseInput where
  cancelled : Bool
  stdout : String
  stderr : String
  parse : Option PHPCSReport
  parseErrMsg : String
  showSources : Bool
  fs : String → FileState
  standard : String

/-- Externally observable effects of one run of the `close` handler.
`published = some d` means `diagnosticCollection.set(uri, d)` executed;
`none` means the handler returned before reaching it. -/
structure CloseEffects where
  published : Option (List Diagnostic)
  shownErrors : List String
  rejected : Option String
  disposedRunner : Bool
  deletedRunner : Bool
deriving DecidableEq, Repr

/-- The sniffer `close` handler (`sniffer.ts` lines 496-583).  The early
branch covers a cancelled token or empty stdout and only inspects the
output for the disabled-standard message; both the success branch and the
catch branch fall through to `diagnosticCollection.set`, `runner.dispose`
and the map delete (the `reject` in the catch does not return). -/
def closeHandler (inp : CloseInput) : CloseEffects :=
  if inp.cancelled || inp.stdout = "" then
    let shown :=
      if (isStandardDisabled inp.fs inp.standard .phpcs inp.stdout
          inp.stderr).fst then
        [getStandardDisabledErrorMsg inp.standard .phpcs inp.stdout
          inp.stderr]
      else []
    ⟨none, shown, none, false, false⟩
  else
    match inp.parse with
    | some report =>
        ⟨some (buildDiagnostics report inp.showSources), [], none, true,
          true⟩
    | none =>
        let raw :=
          (if inp.stdout ≠ "" then inp.stdout ++ "\n" else "") ++
          (if inp.stderr ≠ "" then inp.stderr ++ "\n" else "") ++
          inp.parseErrMsg
        let msg :=
          if (isStandardDisabled inp.fs inp.standard .phpcs inp.stdout
              inp.stderr).fst then
            getStandardDisabledErrorMsg inp.standard .phpcs inp.stdout
              inp.stderr
          else raw
        ⟨some [], [msg], some msg, true, true⟩

/-- The diagnostic set associated with the document after the handler
ran, given the previously published set. -/
def diagAfter (prev : Option (List Diagnostic)) (eff : CloseEffects) :
    Option (List Diagnostic) :=
  match eff.published with
  | none => prev
  | some d => some d

/-- The `fixer.error` value (a node `ConsoleError`): code and message. -/
structure ConsoleErr where
  code : String
  message : String
deriving DecidableEq, Repr

/-- The `nodeErrors` table of `format` (`sniffer.ts` lines 897-901). -/
def nodeErrors : String → Option String
  | "ERR_OPERATION_FAILED" => some "A general script execution error occurred."
  | "ENOENT" => some "No such file or directory"
  | "ETIMEDOUT" => some "Script execution timed out."
  | _ => none

/-- JS template interpolation of a possibly-`undefined` value. -/
def jsUndef (o : Option String) : String := o.getD "undefined"

/-- The error string built for a node internal error
(`sniffer.ts` lines 961-962 and 984-985). -/
def nodeInternalError (e : ConsoleErr) : String :=
  "FIXER - Node Internal Error: " ++ e.message ++ "\n" ++
    jsUndef (nodeErrors e.code)

/-- Outcome of `format`: a rejected promise carrying the error string, or
a resolved one carrying the result text (empty = nothing to replace) and
the informational message. -/
inductive FixOutcome where
  | failure (err : String)
  | success (result : String) (message : String)
deriving DecidableEq, Repr

/-- The decision core of the fixer `format` function
(`sniffer.ts` lines 903-1006): the `switch` on the mapped exit code and
the final rejection/resolution.  `stdout` is the trimmed fixer stdout
(the initial value of `fixed`), `fileText` the original document text,
`fixerErr` the spawn-level `fixer.error`. -/
def formatDecision (tbl : ErrTable) (fs : String → FileState)
    (standard : String) (exitcode : JSCode) (stdout stderr fileText : String)
    (fixerErr : Option ConsoleErr) : FixOutcome :=
  let errorMsg := (getErrorMsg tbl exitcode .fixer).fst
  let fixed := stdout
  let res : String × String × String :=
    if exitcode = .str "-1" then
      let error0 := "A general script execution error occurred."
      match fixerErr with
      | none => (error0, "", "")
      | some e =>
          let error1 :=
            if e.code = "ETIMEDOUT" then
              "FIXER: Formatting the document timed out."
            else error0
          let error2 :=
            if e.code = "ENOENT" then
              "FIXER: " ++ e.message ++ ". executablePath not found."
            else error1
          (error2, "", "")
    else if exitcode = .num 0 then
      if fixed ≠ "" ∧ fixed ≠ fileText then
        ("", fixed, "All fixable errors were fixed correctly.")
      else ("", "", "No fixable errors were found.")
    else if exitcode = .num 5 then
      if fixed ≠ "" ∧ fixed ≠ fileText then
        ("", fixed, "FIXER: " ++ jsUndef errorMsg)
      else
        match fixerErr with
        | some e => (nodeInternalError e, "", "")
        | none => ("", "", "")
    else
      if (isStandardDisabled fs standard .phpcbf stdout stderr).fst then
        (getStandardDisabledErrorMsg standard .phpcbf stdout stderr, "", "")
      else if fixed ≠ "" then
        ("FIXER: " ++ jsUndef errorMsg ++ "\n" ++ fixed ++ "\n", "", "")
      else
        match fixerErr with
        | some e => (nodeInternalError e, "", "")
        | none => ("FATAL: Unknown error occurred.", "", "")
  if res.1 ≠ "" then .failure res.1 else .success res.2.1 res.2.2

/-- Association-list lookup modelling `runnerCancellations.get(uri)`. -/
def lookupRunner : List (String × Nat) → String → Option Nat
  | [], _ => none
  | (k, v) :: rest, uri => if k = uri then some v else lookupRunner rest uri

/-- Embeds `runnerCancellations.set(uri, runner)`: replace or append. -/
def setRunner : List (String × Nat) → String → Nat → List (String × Nat)
  | [], uri, t => [(uri, t)]
  | (k, v) :: rest, uri, t =>
      if k = uri then (uri, t) :: rest else (k, v) :: setRunner rest uri t

/-- Embeds `runnerCancellations.delete(uri)`. -/
def deleteRunner : List (String × Nat) → String → List (String × Nat)
  | [], _ => []
  | (k, v) :: rest, uri =>
      if k = uri then deleteRunner rest uri
      else (k, v) :: deleteRunner rest uri

/-- Scheduler state: the `runnerCancellations` map (uri → token id), the
history of created token sources with their uri, the sets of cancelled
and disposed token ids, and the next fresh id. -/
structure SnifferState where
  runners : List (String × Nat)
  created : List (Nat × String)
  cancelled : List Nat
  disposed : List Nat
  nextId : Nat

/-- Initial scheduler state. -/
def initSnifferState : SnifferState := ⟨[], [], [], [], 0⟩

/-- The synchronous cancel-and-replace block at the start of `validate`
(`sniffer.ts` lines 451-459): cancel and dispose the old runner when
present, then store a fresh token source under the document uri. -/
def startRun (uri : String) (st : SnifferState) : SnifferState :=
  let t := st.nextId
  match lookupRunner st.runners uri with
  | some old =>
      { runners := setRunner st.runners uri t
        created := (t, uri) :: st.created
        cancelled := old :: st.cancelled
        disposed := old :: st.disposed
        nextId := t + 1 }
  | none =>
      { runners := setRunner st.runners uri t
        created := (t, uri) :: st.created
        cancelled := st.cancelled
        disposed := st.disposed
        nextId := t + 1 }

/-- The state effect of one `close` handler run for token `t` of `uri`
(`sniffer.ts` lines 496-583): when the token was created for this uri,
is not cancelled, has not already been disposed (each subprocess closes
once) and stdout is non-empty, the runner is disposed and the map entry
for the uri deleted; otherwise the early return of the handler leaves the
scheduler state unchanged. -/
def closeStep (uri : String) (t : Nat) (emptyOut : Bool)
    (st : SnifferState) : SnifferState :=
  if (t, uri) ∈ st.created ∧ t ∉ st.cancelled ∧ t ∉ st.disposed ∧
      emptyOut = false then
    { st with disposed := t :: st.disposed
              runners := deleteRunner st.runners uri }
  else st

/-- Scheduler events: a `validate` start for a uri, or a subprocess close
for a given token of a uri. -/
inductive SnifferEv where
  | start (uri : String)
  | close (uri : String) (t : Nat) (emptyOut : Bool)

/-- One scheduler transition. -/
def snifferStep (st : SnifferState) : SnifferEv → SnifferState
  | .start uri => startRun uri st
  | .close uri t e => closeStep uri t e st

/-- The state reached from the initial state by a list of events. -/
def runSniffer (evs : List SnifferEv) : SnifferState :=
  evs.foldl snifferStep initSnifferState

/-- Token `t` is a live job for `uri`: created for that uri, neither
cancelled nor disposed. -/
def liveFor (st : SnifferState) (uri : String) (t : Nat) : Prop :=
  (t, uri) ∈ st.created ∧ t ∉ st.cancelled ∧ t ∉ st.disposed

instance (st : SnifferState) (uri : String) (t : Nat) :
    Decidable (liveFor st uri t) := by
  unfold liveFor
  infer_instance

/-- Scheduler invariant: every live token is the one stored in the map
for its uri, and every id the state mentions is below `nextId`. -/
structure SnifferInv (st : SnifferState) : Prop where
  liveMapped : ∀ uri t, liveFor st uri t → lookupRunner st.runners uri = some t
  mappedLt : ∀ uri t, lookupRunner st.runners uri = some t → t < st.nextId
  createdLt : ∀ t uri, (t, uri) ∈ st.created → t < st.nextId
  cancelledLt : ∀ t, t ∈ st.cancelled → t < st.nextId
  disposedLt : ∀ t, t ∈ st.disposed → t < st.nextId

theorem lookup_set_self (l : List (String × Nat)) (uri : String) (t : Nat) :
    lookupRunner (setRunner l uri t) uri = some t := by
  induction l with
  | nil => simp [setRunner, lookupRunner]
  | cons p rest ih =>
      by_cases h : p.1 = uri
      · simp [setRunner, h, lookupRunner]
      · simp [setRunner, h, lookupRunner, ih]

theorem lookup_set_ne (l : List (String × Nat)) (uri u : String) (t : Nat)
    (h : u ≠ uri) :
    lookupRunner (setRunner l uri t) u = lookupRunner l u := by
  have h' : uri ≠ u := Ne.symm h
  induction l with
  | nil => simp [setRunner, lookupRunner, h']
  | cons p rest ih =>
      obtain ⟨k, v⟩ := p
      by_cases hp : k = uri
      · subst hp; simp [setRunner, lookupRunner, h']
      · simp [setRunner, hp, lookupRunner, ih]

theorem lookup_delete_self (l : List (String × Nat)) (uri : String) :
    lookupRunner (deleteRunner l uri) uri = none := by
  induction l with
  | nil => simp [deleteRunner, lookupRunner]
  | cons p rest ih =>
      obtain ⟨k, v⟩ := p
      by_cases hp : k = uri
      · simpa [deleteRunner, hp, lookupRunner] using ih
      · simpa [deleteRunner, hp, lookupRunner] using ih

theorem lookup_delete_ne (l : List (String × Nat)) (uri u : String)
    (h : u ≠ uri) :
    lookupRunner (deleteRunner l uri) u = lookupRunner l u := by
  have h' : uri ≠ u := Ne.symm h
  induction l with
  | nil => simp [deleteRunner]
  | cons p rest ih =>
      obtain ⟨k, v⟩ := p
      by_cases hp : k = uri
      · subst hp; simp [deleteRunner, lookupRunner, h', ih]
      · simp [deleteRunner, hp, lookupRunner, ih]

theorem startRun_none (st : SnifferState) (uri : String)
    (h : lookupRunner st.runners uri = none) :
    startRun uri st =
      { runners := setRunner st.runners uri st.nextId
        created := (st.nextId, uri) :: st.created
        cancelled := st.cancelled
        disposed := st.disposed
        nextId := st.nextId + 1 } := by
  simp [startRun, h]

theorem startRun_some (st : SnifferState) (uri : String) (old : Nat)
    (h : lookupRunner st.runners uri = some old) :
    startRun uri st =
      { runners := setRunner st.runners uri st.nextId
        created := (st.nextId, uri) :: st.created
        cancelled := old :: st.cancelled
        disposed := old :: st.disposed
        nextId := st.nextId + 1 } := by
  simp [startRun, h]

theorem inv_init : SnifferInv initSnifferState := by
  constructor <;> intro _ <;> simp [initSnifferState, liveFor, lookupRunner]

theorem inv_start (st : SnifferState) (uri : String)
    (hinv : SnifferInv st) : SnifferInv (startRun uri st) := by
  cases h : lookupRunner st.runners uri with
  | none =>
      rw [startRun_none st uri h]
      refine ⟨?_, ?_, ?_, ?_, ?_⟩
      all_goals try simp only [liveFor]
      · intro uri' t ⟨hc, hnc, hnd⟩
        simp only [List.mem_cons, Prod.mk.injEq] at hc
        rcases hc with ⟨ht, hu⟩ | hc
        · subst ht; subst hu; exact lookup_set_self ..
        · have hlive : liveFor st uri' t := ⟨hc, hnc, hnd⟩
          have hm := hinv.liveMapped uri' t hlive
          by_cases huri : uri' = uri
          · subst huri; rw [h] at hm; exact absurd hm (by simp)
          · rw [lookup_set_ne _ _ _ _ huri]; exact hm
      · intro uri' t hl
        by_cases huri : uri' = uri
        · subst huri
          rw [lookup_set_self] at hl
          simp only [Option.some.injEq] at hl
          omega
        · rw [lookup_set_ne _ _ _ _ huri] at hl
          have := hinv.mappedLt uri' t hl
          omega
      · intro t uri' hc
        simp only [List.mem_cons, Prod.mk.injEq] at hc
        rcases hc with ⟨ht, _⟩ | hc
        · omega
        · have := hinv.createdLt t uri' hc; omega
      · intro t ht; have := hinv.cancelledLt t ht; omega
      · intro t ht; have := hinv.disposedLt t ht; omega
  | some old =>
      have holdlt : old < st.nextId := hinv.mappedLt uri old h
      rw [startRun_some st uri old h]
      refine ⟨?_, ?_, ?_, ?_, ?_⟩
      all_goals try simp only [liveFor]
      · intro uri' t ⟨hc, hnc, hnd⟩
        simp only [List.mem_cons, Prod.mk.injEq] at hc
        simp only [List.mem_cons, not_or] at hnc hnd
        rcases hc with ⟨ht, hu⟩ | hc
        · subst ht; subst hu; exact lookup_set_self ..
        · have hlive : liveFor st uri' t := ⟨hc, hnc.2, hnd.2⟩
          have hm := hinv.liveMapped uri' t hlive
          by_cases huri : uri' = uri
          · subst huri; rw [h] at hm
            simp only [Option.some.injEq] at hm
            exact absurd hm.symm hnc.1
          · rw [lookup_set_ne _ _ _ _ huri]; exact hm
      · intro uri' t hl
        by_cases huri : uri' = uri
        · subst huri
          rw [lookup_set_self] at hl
          simp only [Option.some.injEq] at hl
          omega
        · rw [lookup_set_ne _ _ _ _ huri] at hl
          have := hinv.mappedLt uri' t hl
          omega
      · intro t uri' hc
        simp only [List.mem_cons, Prod.mk.injEq] at hc
        rcases hc with ⟨ht, _⟩ | hc
        · omega
        · have := hinv.createdLt t uri' hc; omega
      · intro t ht
        simp only [List.mem_cons] at ht
        rcases ht with ht | ht
        · omega
        · have := hinv.cancelledLt t ht; omega
      · intro t ht
        simp only [List.mem_cons] at ht
        rcases ht with ht | ht
        · omega
        · have := hinv.disposedLt t ht; omega

theorem inv_close (st : SnifferState) (uri : String) (t : Nat)
    (e : Bool) (hinv : SnifferInv st) : SnifferInv (closeStep uri t e st) := by
  unfold closeStep
  by_cases hg : (t, uri) ∈ st.created ∧ t ∉ st.cancelled ∧
      t ∉ st.disposed ∧ e = false
  · rw [if_pos hg]
    obtain ⟨hc, hnc, hnd, -⟩ := hg
    have hmap : lookupRunner st.runners uri = some t :=
      hinv.liveMapped uri t ⟨hc, hnc, hnd⟩
    refine ⟨?_, ?_, ?_, ?_, ?_⟩
    all_goals try simp only [liveFor]
    · intro uri' t' ⟨hc', hnc', hnd'⟩
      simp only [List.mem_cons, not_or] at hnd'
      have hlive : liveFor st uri' t' := ⟨hc', hnc', hnd'.2⟩
      have hm := hinv.liveMapped uri' t' hlive
      by_cases huri : uri' = uri
      · subst huri; rw [hmap] at hm
        simp only [Option.some.injEq] at hm
        exact absurd hm.symm hnd'.1
      · rw [lookup_delete_ne _ _ _ huri]; exact hm
    · intro uri' t' hl
      by_cases huri : uri' = uri
      · subst huri; rw [lookup_delete_self] at hl; exact absurd hl (by simp)
      · rw [lookup_delete_ne _ _ _ huri] at hl
        exact hinv.mappedLt uri' t' hl
    · exact hinv.createdLt
    · exact hinv.cancelledLt
    · intro t' ht'
      simp only [List.mem_cons] at ht'
      rcases ht' with ht' | ht'
      · subst ht'; exact hinv.createdLt t' uri hc
      · exact hinv.disposedLt t' ht'
  · rw [if_neg hg]; exact hinv

theorem inv_runFrom (evs : List SnifferEv) (st : SnifferState)
    (hinv : SnifferInv st) : SnifferInv (evs.foldl snifferStep st) := by
  induction evs generalizing st with
  | nil => exact hinv
  | cons ev rest ih =>
      cases ev with
      | start uri => exact ih _ (inv_start st uri hinv)
      | close uri t e => exact ih _ (inv_close st uri t e hinv)

theorem inv_run (evs : List SnifferEv) : SnifferInv (runSniffer evs) :=
  inv_runFrom evs initSnifferState inv_init

theorem prefix3_not4 (l : List Char) (h : ['3', '.'].isPrefixOf l = true) :
    ['4', '.'].isPrefixOf l = false := by
  cases l with
  | nil => simp [List.isPrefixOf] at h
  | cons c rest =>
      simp only [List.isPrefixOf, Bool.and_eq_true, beq_iff_eq] at h
      obtain ⟨hc3, -⟩ := h
      subst hc3
      simp [List.isPrefixOf]

theorem startsWith3_not4 (v : String) (h : jsStartsWith v "3." = true) :
    jsStartsWith v "4." = false := by
  unfold jsStartsWith at h ⊢
  have h3 : String.toList "3." = ['3', '.'] := by decide
  have h4 : String.toList "4." = ['4', '.'] := by decide
  rw [h3] at h
  rw [h4]
  exact prefix3_not4 v.toList h

theorem getMapped_legacy (v : String) (h : jsStartsWith v "3." = true)
    (c : Option Int) (t : ToolType) :
    getMappedExitCode (some v) c t =
      ((legacy3xStatus t (jsKey (codeOrSentinel c))).getD (codeOrSentinel c),
        []) := by
  have h4 := startsWith3_not4 v h
  simp [getMappedExitCode, h, h4]

/-- C1: for a legacy (3.x) sniffer version, `getMappedExitCode` in
sniffer (validate) mode translates 0↦0 (NoErrors), 1↦2 (NonAutoFixable),
2↦1 (AutoFixable), 3↦16 (ProcessingError) and the no-status sentinel
`"-1"` to `"-1"`; in fixer mode the same mapping applies except 1↦0
(NoErrors) and 2↦5 (FixFailedSomeErrors). -/
theorem legacy_exit_code_mapping (v : String)
    (h : jsStartsWith v "3." = true) :
    (getMappedExitCode (some v) (some 0) .sniffer).fst = .num 0 ∧
    (getMappedExitCode (some v) (some 1) .sniffer).fst = .num 2 ∧
    (getMappedExitCode (some v) (some 2) .sniffer).fst = .num 1 ∧
    (getMappedExitCode (some v) (some 3) .sniffer).fst = .num 16 ∧
    (getMappedExitCode (some v) none .sniffer).fst = .str "-1" ∧
    (getMappedExitCode (some v) (some 0) .fixer).fst = .num 0 ∧
    (getMappedExitCode (some v) (some 1) .fixer).fst = .num 0 ∧
    (getMappedExitCode (some v) (some 2) .fixer).fst = .num 5 ∧
    (getMappedExitCode (some v) (some 3) .fixer).fst = .num 16 ∧
    (getMappedExitCode (some v) none .fixer).fst = .str "-1" := by
  refine ⟨?_, ?_, ?_, ?_, ?_, ?_, ?_, ?_, ?_, ?_⟩ <;>
    rw [getMapped_legacy v h] <;> decide

/-- C1 witness: the mapping evaluated at the concrete version `3.7.2`. -/
theorem legacy_exit_code_mapping_witness :
    jsStartsWith "3.7.2" "3." = true ∧
    ((getMappedExitCode (some "3.7.2") (some 0) .sniffer).fst = .num 0 ∧
     (getMappedExitCode (some "3.7.2") (some 1) .sniffer).fst = .num 2 ∧
     (getMappedExitCode (some "3.7.2") (some 2) .sniffer).fst = .num 1 ∧
     (getMappedExitCode (some "3.7.2") (some 3) .sniffer).fst = .num 16 ∧
     (getMappedExitCode (some "3.7.2") none .sniffer).fst = .str "-1" ∧
     (getMappedExitCode (some "3.7.2") (some 0) .fixer).fst = .num 0 ∧
     (getMappedExitCode (some "3.7.2") (some 1) .fixer).fst = .num 0 ∧
     (getMappedExitCode (some "3.7.2") (some 2) .fixer).fst = .num 5 ∧
     (getMappedExitCode (some "3.7.2") (some 3) .fixer).fst = .num 16 ∧
     (getMappedExitCode (some "3.7.2") none .fixer).fst = .str "-1") :=
  ⟨by decide, legacy_exit_code_mapping "3.7.2" (by decide)⟩

/-- C9: when the sniffer version cannot be determined, `getMappedExitCode`
logs the translator-unavailable message and returns the raw code
unmapped, after substituting the `"-1"` sentinel for a null code; it
never fails. -/
theorem unknown_version_returns_raw_code :
    ∀ (code : Option Int) (t : ToolType),
      getMappedExitCode none code t =
        (codeOrSentinel code, ["Unable to determine sniffer version"]) :=
  fun _ _ => rfl

/-- C10: `getErrorMsg` is stateful: on the initial table, status 0 in
sniffer mode reads `"No errors were found"`, but after any call in fixer
mode entry 0 of the shared table is permanently overwritten, so the same
sniffer-mode call afterwards reads
`"No errors were found or all errors were fixed"`. -/
theorem getErrorMsg_stateful :
    (getErrorMsg errorMsgs (.num 0) .sniffer).fst =
      some "No errors were found" ∧
    ∀ (s : JSCode),
      (getErrorMsg ((getErrorMsg errorMsgs s .fixer).snd) (.num 0)
          .sniffer).fst =
        some "No errors were found or all errors were fixed" :=
  ⟨by decide, fun _ => rfl⟩

/-- C5 counterexample: for a ruleset whose content contains
`phpcbf-only="true"` and output containing `No sniffs were registered`,
`isStandardDisabled` returns `false` in fixer mode (`phpcbf`) and `true`
in validator mode (`phpcs`) — the opposite of the claim: the attribute
`phpcbf-only="true"` is in the list that disables `phpcs`, not the list
that disables `phpcbf`. -/
theorem disabled_standard_mode_cex :
    (isStandardDisabled
      (fun p => if p = "ruleset.xml" then
        FileState.content "<ruleset name=\"x\" phpcbf-only=\"true\">"
        else FileState.absent)
      "ruleset.xml" .phpcbf "ERROR: No sniffs were registered" "").fst
      = false ∧
    (isStandardDisabled
      (fun p => if p = "ruleset.xml" then
        FileState.content "<ruleset name=\"x\" phpcbf-only=\"true\">"
        else FileState.absent)
      "ruleset.xml" .phpcs "ERROR: No sniffs were registered" "").fst
      = true := by
  exact ⟨by decide, by decide⟩

/-- C5 amended: for a ruleset whose content contains
`phpcbf-only="true"` (and neither `phpcs-only="true"` nor
`phpcbf-only="false"`), with output containing the no-sniffs text,
`isStandardDisabled` returns `true` in validator mode (`phpcs`) and
`false` in fixer mode (`phpcbf`). -/
theorem disabled_standard_mode_amended (fs : String → FileState)
    (standard c stdout stderr : String)
    (hs : standard ≠ "") (hc : fs standard = .content c)
    (h1 : jsIncludes c "phpcbf-only=\"true\"" = true)
    (h2 : jsIncludes c "phpcs-only=\"true\"" = false)
    (h3 : jsIncludes c "phpcbf-only=\"false\"" = false)
    (hn : hasNoSniffsError stdout stderr = true) :
    (isStandardDisabled fs standard .phpcs stdout stderr).fst = true ∧
    (isStandardDisabled fs standard .phpcbf stdout stderr).fst = false := by
  constructor <;> simp [isStandardDisabled, hs, hc, disablingAttrs, h1, h2,
    h3, hn]

/-- C5 witness: the amended statement evaluated at the concrete ruleset
of the counterexample. -/
theorem disabled_standard_mode_amended_witness :
    (isStandardDisabled
      (fun p => if p = "phpcs.xml" then
        FileState.content "<ruleset phpcbf-only=\"true\"></ruleset>"
        else FileState.absent)
      "phpcs.xml" .phpcs "No sniffs were registered" "").fst = true ∧
    (isStandardDisabled
      (fun p => if p = "phpcs.xml" then
        FileState.content "<ruleset phpcbf-only=\"true\"></ruleset>"
        else FileState.absent)
      "phpcs.xml" .phpcbf "No sniffs were registered" "").fst = false :=
  disabled_standard_mode_amended
    (fun p => if p = "phpcs.xml" then
      FileState.content "<ruleset phpcbf-only=\"true\"></ruleset>"
      else FileState.absent)
    "phpcs.xml" "<ruleset phpcbf-only=\"true\"></ruleset>"
    "No sniffs were registered" ""
    (by decide) (by decide) (by decide) (by decide) (by decide) (by decide)

/-- C6: `isStandardDisabled` returns `true` iff the standard path is
non-empty, the ruleset file is readable with content containing one of
the mode-disabling attribute values for the queried tool, and either
stdout or stderr contains the no-sniffs text; an absent or unreadable
ruleset yields `false`, the unreadable case logging the read failure. -/
theorem isStandardDisabled_iff :
    (∀ (fs : String → FileState) (standard : String) (t : Tool2)
        (stdout stderr : String),
      (isStandardDisabled fs standard t stdout stderr).fst = true ↔
        (standard ≠ "" ∧ ∃ c, fs standard = .content c ∧
          (∃ a ∈ disablingAttrs t, jsIncludes c a = true) ∧
          hasNoSniffsError stdout stderr = true)) ∧
    (∀ (fs : String → FileState) (standard : String) (t : Tool2)
        (stdout stderr : String),
      fs standard = .absent ∨ fs standard = .unreadable →
      (isStandardDisabled fs standard t stdout stderr).fst = false) ∧
    (∀ (fs : String → FileState) (standard : String) (t : Tool2)
        (stdout stderr : String),
      standard ≠ "" → fs standard = .unreadable →
      (isStandardDisabled fs standard t stdout stderr).snd =
        ["Could not read standard file: " ++ standard]) := by
  refine ⟨?_, ?_, ?_⟩
  · intro fs standard t stdout stderr
    by_cases hs : standard = ""
    · simp [isStandardDisabled, hs]
    · cases hfs : fs standard with
      | absent => simp [isStandardDisabled, hs, hfs]
      | unreadable => simp [isStandardDisabled, hs, hfs]
      | content c =>
          have hval : (isStandardDisabled fs standard t stdout stderr).fst
              = ((disablingAttrs t).any (fun a => jsIncludes c a) &&
                hasNoSniffsError stdout stderr) := by
            simp [isStandardDisabled, hs, hfs]
          rw [hval, Bool.and_eq_true, List.any_eq_true]
          constructor
          · rintro ⟨⟨a, ha, hia⟩, hn⟩
            exact ⟨hs, c, rfl, ⟨a, ha, hia⟩, hn⟩
          · rintro ⟨-, c', hc', ⟨a, ha, hia⟩, hn⟩
            injection hc' with hcc
            subst hcc
            exact ⟨⟨a, ha, hia⟩, hn⟩
  · intro fs standard t stdout stderr h
    by_cases hs : standard = ""
    · simp [isStandardDisabled, hs]
    · rcases h with h | h <;> simp [isStandardDisabled, hs, h]
  · intro fs standard t stdout stderr hs h
    simp [isStandardDisabled, hs, h]

/-- C6 witness: the fail-open branches evaluated at a concrete
unreadable file and a concrete readable-and-disabled file. -/
theorem isStandardDisabled_iff_witness :
    (isStandardDisabled (fun _ => FileState.unreadable) "r.xml" .phpcs ""
      "").fst = false ∧
    (isStandardDisabled (fun _ => FileState.unreadable) "r.xml" .phpcs ""
      "").snd = ["Could not read standard file: r.xml"] ∧
    (isStandardDisabled
      (fun _ => FileState.content "a phpcs-only=\"false\" b") "r.xml"
      .phpcs "No sniffs were registered" "").fst = true :=
  ⟨isStandardDisabled_iff.2.1 (fun _ => FileState.unreadable) "r.xml"
      .phpcs "" "" (Or.inr rfl),
   isStandardDisabled_iff.2.2 (fun _ => FileState.unreadable) "r.xml"
      .phpcs "" "" (by decide) rfl,
   (isStandardDisabled_iff.1
      (fun _ => FileState.content "a phpcs-only=\"false\" b") "r.xml"
      .phpcs "No sniffs were registered" "").mpr
     ⟨by decide, "a phpcs-only=\"false\" b", rfl,
      ⟨"phpcs-only=\"false\"", by decide, by decide⟩, by decide⟩⟩

/-- C3: when the cancellation token is signalled before the close event
is handled, the handler returns before `diagnosticCollection.set`: no
diagnostics are published, the previously published set is untouched and
the run is not rejected; the output may still be inspected for the
disabled-standard message. -/
theorem cancelled_run_publishes_nothing (inp : CloseInput)
    (prev : Option (List Diagnostic)) (h : inp.cancelled = true) :
    (closeHandler inp).published = none ∧
    diagAfter prev (closeHandler inp) = prev ∧
    (closeHandler inp).rejected = none ∧
    (closeHandler inp).disposedRunner = false ∧
    (closeHandler inp).shownErrors =
      (if (isStandardDisabled inp.fs inp.standard .phpcs inp.stdout
          inp.stderr).fst then
        [getStandardDisabledErrorMsg inp.standard .phpcs inp.stdout
          inp.stderr]
      else []) := by
  refine ⟨?_, ?_, ?_, ?_, ?_⟩ <;> simp [closeHandler, h, diagAfter]

/-- C3 witness: a concrete cancelled run over a disabled standard: the
set call is skipped while the disabled-standard message is shown. -/
theorem cancelled_run_publishes_nothing_witness :
    (closeHandler ⟨true, "", "No sniffs were registered", none, "",
      false,
      fun _ => FileState.content "x phpcbf-only=\"true\" y",
      "r.xml"⟩).published = none ∧
    diagAfter (some [⟨⟨3, 4, 3, 4⟩, "m", Severity.warning, "phpcs"⟩])
      (closeHandler ⟨true, "", "No sniffs were registered", none, "",
        false,
        fun _ => FileState.content "x phpcbf-only=\"true\" y",
        "r.xml"⟩) =
      some [⟨⟨3, 4, 3, 4⟩, "m", Severity.warning, "phpcs"⟩] ∧
    (closeHandler ⟨true, "", "No sniffs were registered", none, "",
      false,
      fun _ => FileState.content "x phpcbf-only=\"true\" y",
      "r.xml"⟩).shownErrors =
      [getStandardDisabledErrorMsg "r.xml" .phpcs ""
        "No sniffs were registered"] := by
  have h := cancelled_run_publishes_nothing
    ⟨true, "", "No sniffs were registered", none, "", false,
      fun _ => FileState.content "x phpcbf-only=\"true\" y", "r.xml"⟩
    (some [⟨⟨3, 4, 3, 4⟩, "m", Severity.warning, "phpcs"⟩]) rfl
  refine ⟨h.1, h.2.1, ?_⟩
  rw [h.2.2.2.2]
  have hd : (isStandardDisabled
      (fun _ => FileState.content "x phpcbf-only=\"true\" y") "r.xml"
      .phpcs "" "No sniffs were registered").fst = true := by decide
  rw [hd]
  simp

/-- C4 counterexample: a run whose non-empty stdout fails to parse is
rejected with the raw output in the message, but the previously
published diagnostic set is NOT left unchanged: the handler falls
through to `diagnosticCollection.set` with the empty diagnostics array,
clearing the set. -/
theorem malformed_report_cex :
    diagAfter
      (some [⟨⟨0, 0, 0, 0⟩, "old finding", Severity.error, "phpcs"⟩])
      (closeHandler ⟨false, "Fatal error", "", none, "SyntaxError: x",
        false, fun _ => FileState.absent, ""⟩) = some [] ∧
    (some ([] : List Diagnostic) ≠
      some [⟨⟨0, 0, 0, 0⟩, "old finding", Severity.error, "phpcs"⟩]) ∧
    (closeHandler ⟨false, "Fatal error", "", none, "SyntaxError: x",
      false, fun _ => FileState.absent, ""⟩).rejected =
      some "Fatal error\nSyntaxError: x" := by
  exact ⟨by decide, by decide, by decide⟩

/-- C4 amended: a run with non-empty stdout that fails to parse is
rejected and shows a message built from the raw stdout/stderr plus the
parse error (replaced wholesale by the disabled-standard explanation
when that condition is detected), and the published
diagnostic set is then replaced with the empty list (cleared), the
runner disposed and removed from the map. -/
theorem malformed_report_rejects_and_clears (inp : CloseInput)
    (prev : Option (List Diagnostic)) (h1 : inp.cancelled = false)
    (h2 : inp.stdout ≠ "") (h3 : inp.parse = none) :
    (closeHandler inp).rejected = some
      (if (isStandardDisabled inp.fs inp.standard .phpcs inp.stdout
          inp.stderr).fst then
        getStandardDisabledErrorMsg inp.standard .phpcs inp.stdout
          inp.stderr
      else
        inp.stdout ++ "\n" ++
        (if inp.stderr ≠ "" then inp.stderr ++ "\n" else "") ++
        inp.parseErrMsg) ∧
    (closeHandler inp).shownErrors = [
      (if (isStandardDisabled inp.fs inp.standard .phpcs inp.stdout
          inp.stderr).fst then
        getStandardDisabledErrorMsg inp.standard .phpcs inp.stdout
          inp.stderr
      else
        inp.stdout ++ "\n" ++
        (if inp.stderr ≠ "" then inp.stderr ++ "\n" else "") ++
        inp.parseErrMsg)] ∧
    (closeHandler inp).published = some [] ∧
    diagAfter prev (closeHandler inp) = some [] ∧
    (closeHandler inp).disposedRunner = true ∧
    (closeHandler inp).deletedRunner = true := by
  refine ⟨?_, ?_, ?_, ?_, ?_, ?_⟩ <;>
    simp [closeHandler, h1, h2, h3, diagAfter]

/-- C4 witness: the amended statement at a concrete malformed run. -/
theorem malformed_report_rejects_and_clears_witness :
    (closeHandler ⟨false, "oops", "warn", none, "SyntaxError: y", true,
      fun _ => FileState.absent, "s.xml"⟩).rejected =
      some "oops\nwarn\nSyntaxError: y" ∧
    (closeHandler ⟨false, "oops", "warn", none, "SyntaxError: y", true,
      fun _ => FileState.absent, "s.xml"⟩).published = some [] := by
  have h := malformed_report_rejects_and_clears
    ⟨false, "oops", "warn", none, "SyntaxError: y", true,
      fun _ => FileState.absent, "s.xml"⟩ none rfl (by decide) rfl
  refine ⟨?_, h.2.2.1⟩
  rw [h.1]
  have hd : (isStandardDisabled (fun _ => FileState.absent) "s.xml"
      .phpcs "oops" "warn").fst = false := by decide
  rw [hd]
  simp

theorem foldl_app_acc {α β : Type} (h : α → List β) (l : List α) :
    ∀ (acc : List β),
      l.foldl (fun a x => a ++ h x) acc =
        acc ++ l.foldl (fun a x => a ++ h x) [] := by
  induction l with
  | nil => intro acc; simp
  | cons x rest ih =>
      intro acc
      simp only [List.foldl_cons, List.nil_append]
      rw [ih (acc ++ h x), ih (h x)]
      simp [List.append_assoc]

theorem buildDiagnostics_eq (report : PHPCSReport) (ss : Bool) :
    buildDiagnostics report ss =
      (allMessages report).map (diagOfMessage ss) := by
  unfold buildDiagnostics allMessages
  induction report.files with
  | nil => simp
  | cons f rest ih =>
      simp only [List.foldl_cons, List.nil_append]
      rw [foldl_app_acc (fun f => f.2.messages.map (diagOfMessage ss))
        rest (f.2.messages.map (diagOfMessage ss)),
        foldl_app_acc (fun f => f.2.messages) rest f.2.messages, ih]
      simp

/-- C8: the diagnostics published from a parsed report correspond
one-to-one, in order, to the messages of the report; each range
is exactly `(line - 1, column - 1)` at both ends, with severity `Error`
exactly when the message type is `ERROR` and `Warning` otherwise. -/
theorem finding_positions_zero_based (report : PHPCSReport) (ss : Bool)
    (m : PHPCSMessage) :
    buildDiagnostics report ss =
      (allMessages report).map (diagOfMessage ss) ∧
    (diagOfMessage ss m).range =
      ⟨m.line - 1, m.column - 1, m.line - 1, m.column - 1⟩ ∧
    ((diagOfMessage ss m).severity = .error ↔ m.msgType = "ERROR") ∧
    (m.msgType ≠ "ERROR" → (diagOfMessage ss m).severity = .warning) := by
  refine ⟨buildDiagnostics_eq report ss, rfl, ?_, ?_⟩
  · unfold diagOfMessage
    by_cases h : m.msgType = "ERROR" <;> simp [h]
  · intro h
    unfold diagOfMessage
    simp [h]

/-- C8 witness: the correspondence evaluated at a concrete one-message
report. -/
theorem finding_positions_zero_based_witness :
    buildDiagnostics ⟨[("f.php", ⟨[⟨"msg", 12, 7, "WARNING", "Std.R",
        true⟩]⟩)]⟩ false =
      (allMessages ⟨[("f.php", ⟨[⟨"msg", 12, 7, "WARNING", "Std.R",
        true⟩]⟩)]⟩).map (diagOfMessage false) ∧
    (diagOfMessage false ⟨"msg", 12, 7, "WARNING", "Std.R", true⟩).range
      = ⟨11, 6, 11, 6⟩ ∧
    (diagOfMessage false
      ⟨"msg", 12, 7, "WARNING", "Std.R", true⟩).severity =
      Severity.warning := by
  have h := finding_positions_zero_based
    ⟨[("f.php", ⟨[⟨"msg", 12, 7, "WARNING", "Std.R", true⟩]⟩)]⟩ false
    ⟨"msg", 12, 7, "WARNING", "Std.R", true⟩
  refine ⟨h.1, ?_, h.2.2.2 (by decide)⟩
  rw [h.2.1]
  decide

/-- C7 counterexample: a no-status (`"-1"`) result with a detected
disabled-standard condition does NOT yield a Failure naming the mode
conflict: the `"-1"` case of the switch never consults the detector and
fails with the generic script-execution error instead. -/
theorem format_no_status_ignores_disabled_cex :
    (isStandardDisabled
      (fun p => if p = "r.xml" then
        FileState.content "<ruleset phpcs-only=\"true\">"
        else FileState.absent)
      "r.xml" .phpcbf "" "ERROR: No sniffs were registered").fst = true ∧
    formatDecision errorMsgs
      (fun p => if p = "r.xml" then
        FileState.content "<ruleset phpcs-only=\"true\">"
        else FileState.absent)
      "r.xml" (.str "-1") "" "ERROR: No sniffs were registered" "<?php"
      none
      = .failure "A general script execution error occurred." ∧
    "A general script execution error occurred." ≠
      getStandardDisabledErrorMsg "r.xml" .phpcbf ""
        "ERROR: No sniffs were registered" := by
  exact ⟨by decide, by decide, by decide⟩

theorem str_append_ne_empty (a b : String) (ha : a ≠ "") :
    a ++ b ≠ "" := by
  intro hab
  apply ha
  have hd : a.data ++ b.data = [] := congrArg String.data hab
  have h1 : a.data = [] := (List.append_eq_nil.mp hd).1
  cases a
  simp only at h1
  subst h1
  rfl

theorem dropWhile_keeps_non (p : Char → Bool) :
    ∀ (l : List Char) (c : Char), c ∈ l → p c = false →
      ∃ x ∈ l.dropWhile p, p x = false := by
  intro l
  induction l with
  | nil => intro c hc; intro _; simp at hc
  | cons a tl ih =>
      intro c hc hpc
      by_cases hpa : p a = true
      · rw [List.dropWhile_cons, if_pos hpa]
        rcases List.mem_cons.mp hc with hca | hc'
        · subst hca; rw [hpa] at hpc; cases hpc
        · exact ih c hc' hpc
      · rw [List.dropWhile_cons, if_neg hpa]
        exact ⟨a, List.mem_cons_self a tl, by simpa using hpa⟩

theorem jsTrim_ne_empty (s : String) (c : Char) (hc : c ∈ s.toList)
    (hw : isJsWhitespace c = false) : jsTrim s ≠ "" := by
  intro h
  have hd : ((s.toList.dropWhile isJsWhitespace).reverse.dropWhile
      isJsWhitespace).reverse = [] := congrArg String.data h
  rw [List.reverse_eq_nil_iff, List.dropWhile_eq_nil_iff] at hd
  obtain ⟨x, hx, hpx⟩ :=
    dropWhile_keeps_non isJsWhitespace s.toList c hc hw
  have hcontra := hd x (List.mem_reverse.mpr hx)
  rw [hpx] at hcontra
  cases hcontra

theorem mem_str_append_left (c : Char) (a b : String) (h : c ∈ a.data) :
    c ∈ (a ++ b).data := by
  rw [String.data_append]
  exact List.mem_append.mpr (Or.inl h)

theorem getStandardDisabledErrorMsg_ne_empty (standard : String)
    (t : Tool2) (stdout stderr : String) :
    getStandardDisabledErrorMsg standard t stdout stderr ≠ "" := by
  simp only [getStandardDisabledErrorMsg]
  cases t with
  | phpcs =>
      refine jsTrim_ne_empty _ 'P' ?_ (by decide)
      simp only [String.toList]
      repeat apply mem_str_append_left
      decide
  | phpcbf =>
      refine jsTrim_ne_empty _ 'P' ?_ (by decide)
      simp only [String.toList]
      repeat apply mem_str_append_left
      decide

theorem nodeInternalError_ne_empty (e : ConsoleErr) :
    nodeInternalError e ≠ "" := by
  unfold nodeInternalError
  exact str_append_ne_empty _ _
    (str_append_ne_empty _ _ (str_append_ne_empty _ _ (by decide)))

/-- C7 amended: the fix decision policy as the code implements it: a
no-status (`"-1"`) result yields a Failure built from the node-error
table regardless of any disabled-standard condition — the generic
script-execution error when `fixer.error` is absent or carries another
code, the timeout message for ETIMEDOUT, the executablePath-not-found
message for ENOENT; status 0 with empty or unchanged fixed text yields
the no-change outcome and with differing non-empty fixed text yields a
Replace; status 5 yields Replace on any text change, a Failure from the
node internal error when `fixer.error` is present, and otherwise an
empty-result success (not a Failure); every other numeric status yields
a Failure, preferring the disabled-standard explanation over the own
error text of the tool. -/
theorem format_decision_policy_amended (tbl : ErrTable)
    (fs : String → FileState) (standard stdout stderr fileText : String)
    (fe : Option ConsoleErr) :
    (formatDecision tbl fs standard (.str "-1") stdout stderr fileText
        none
      = .failure "A general script execution error occurred.") ∧
    (∀ e : ConsoleErr, e.code = "ETIMEDOUT" →
      formatDecision tbl fs standard (.str "-1") stdout stderr fileText
          (some e)
        = .failure "FIXER: Formatting the document timed out.") ∧
    (∀ e : ConsoleErr, e.code = "ENOENT" →
      formatDecision tbl fs standard (.str "-1") stdout stderr fileText
          (some e)
        = .failure
            ("FIXER: " ++ e.message ++ ". executablePath not found.")) ∧
    (∀ e : ConsoleErr, e.code ≠ "ETIMEDOUT" → e.code ≠ "ENOENT" →
      formatDecision tbl fs standard (.str "-1") stdout stderr fileText
          (some e)
        = .failure "A general script execution error occurred.") ∧
    (stdout = "" ∨ stdout = fileText →
      formatDecision tbl fs standard (.num 0) stdout stderr fileText fe
        = .success "" "No fixable errors were found.") ∧
    (stdout ≠ "" → stdout ≠ fileText →
      formatDecision tbl fs standard (.num 0) stdout stderr fileText fe
        = .success stdout "All fixable errors were fixed correctly.") ∧
    (stdout ≠ "" → stdout ≠ fileText →
      formatDecision tbl fs standard (.num 5) stdout stderr fileText fe
        = .success stdout
            ("FIXER: " ++ jsUndef (getErrorMsg tbl (.num 5) .fixer).fst)) ∧
    (∀ e, stdout = "" ∨ stdout = fileText →
      formatDecision tbl fs standard (.num 5) stdout stderr fileText
          (some e)
        = .failure (nodeInternalError e)) ∧
    (stdout = "" ∨ stdout = fileText →
      formatDecision tbl fs standard (.num 5) stdout stderr fileText none
        = .success "" "") ∧
    (∀ n : Int, n ≠ 0 → n ≠ 5 →
      (isStandardDisabled fs standard .phpcbf stdout stderr).fst = true →
      formatDecision tbl fs standard (.num n) stdout stderr fileText fe
        = .failure
            (getStandardDisabledErrorMsg standard .phpcbf stdout
              stderr)) ∧
    (∀ n : Int, n ≠ 0 → n ≠ 5 →
      ∃ err,
        formatDecision tbl fs standard (.num n) stdout stderr fileText fe
          = .failure err) := by
  refine ⟨?_, ?_, ?_, ?_, ?_, ?_, ?_, ?_, ?_, ?_, ?_⟩
  · simp [formatDecision]
  · intro e he
    simp [formatDecision, he]
  · intro e he
    have hne : ("FIXER: " ++ e.message) ++
        ". executablePath not found." ≠ "" :=
      str_append_ne_empty _ _ (str_append_ne_empty _ _ (by decide))
    simp [formatDecision, he, hne]
  · intro e h1 h2
    simp [formatDecision, h1, h2]
  · intro h
    rcases h with h | h <;> subst h <;> simp [formatDecision]
  · intro h1 h2
    simp [formatDecision, h1, h2]
  · intro h1 h2
    simp [formatDecision, h1, h2]
  · intro e h
    rcases h with h | h <;> subst h <;>
      simp [formatDecision, nodeInternalError_ne_empty e]
  · intro h
    rcases h with h | h <;> subst h <;> simp [formatDecision]
  · intro n hn0 hn5 hdis
    simp [formatDecision, JSCode.num.injEq, hn0, hn5, hdis,
      getStandardDisabledErrorMsg_ne_empty standard .phpcbf stdout
        stderr]
  · intro n hn0 hn5
    by_cases hdis :
        (isStandardDisabled fs standard .phpcbf stdout stderr).fst = true
    · exact ⟨getStandardDisabledErrorMsg standard .phpcbf stdout stderr,
        by simp [formatDecision, JSCode.num.injEq, hn0, hn5, hdis,
          getStandardDisabledErrorMsg_ne_empty standard .phpcbf stdout
            stderr]⟩
    · rw [Bool.not_eq_true] at hdis
      by_cases hf : stdout = ""
      · subst hf
        cases fe with
        | some e =>
            exact ⟨nodeInternalError e, by
              simp [formatDecision, JSCode.num.injEq, hn0, hn5, hdis,
                nodeInternalError_ne_empty e]⟩
        | none =>
            exact ⟨"FATAL: Unknown error occurred.", by
              simp [formatDecision, JSCode.num.injEq, hn0, hn5, hdis]⟩
      · have hne : ("FIXER: " ++
            jsUndef (getErrorMsg tbl (.num n) .fixer).fst ++ "\n" ++
            stdout ++ "\n") ≠ "" :=
          str_append_ne_empty _ _ (str_append_ne_empty _ _
            (str_append_ne_empty _ _ (str_append_ne_empty _ _
              (by decide))))
        exact ⟨"FIXER: " ++
            jsUndef (getErrorMsg tbl (.num n) .fixer).fst ++ "\n" ++
            stdout ++ "\n", by
          simp [formatDecision, JSCode.num.injEq, hn0, hn5, hdis, hf,
            hne]⟩

/-- C7 witness: the amended policy evaluated at concrete runs, including
a timed-out and a missing-executable no-status run and an empty-stdout
partial-fix run with a node error. -/
theorem format_decision_policy_amended_witness :
    (formatDecision errorMsgs (fun _ => FileState.absent) ""
      (.str "-1") "" "" "<?php" none
      = .failure "A general script execution error occurred.") ∧
    (formatDecision errorMsgs (fun _ => FileState.absent) ""
      (.str "-1") "" "" "<?php" (some ⟨"ETIMEDOUT", "x"⟩)
      = .failure "FIXER: Formatting the document timed out.") ∧
    (formatDecision errorMsgs (fun _ => FileState.absent) ""
      (.str "-1") "" "" "<?php" (some ⟨"ENOENT", "spawn phpcbf ENOENT"⟩)
      = .failure
          "FIXER: spawn phpcbf ENOENT. executablePath not found.") ∧
    (formatDecision errorMsgs (fun _ => FileState.absent) ""
      (.num 0) "<?php" "" "<?php" none
      = .success "" "No fixable errors were found.") ∧
    (formatDecision errorMsgs (fun _ => FileState.absent) ""
      (.num 0) "<?php ok" "" "<?php" none
      = .success "<?php ok" "All fixable errors were fixed correctly.") ∧
    (formatDecision errorMsgs (fun _ => FileState.absent) ""
      (.num 5) "" "" "<?php" (some ⟨"ETIMEDOUT", "y"⟩)
      = .failure (nodeInternalError ⟨"ETIMEDOUT", "y"⟩)) ∧
    (formatDecision errorMsgs (fun _ => FileState.absent) ""
      (.num 16) "" "" "<?php" none
      = .failure "FATAL: Unknown error occurred.") := by
  obtain ⟨a1, a2, a3, -, -, -, -, a8, -, -, -⟩ :=
    format_decision_policy_amended errorMsgs (fun _ => FileState.absent)
      "" "" "" "<?php" none
  obtain ⟨-, -, -, -, b5, -, -, -, -, -, -⟩ :=
    format_decision_policy_amended errorMsgs (fun _ => FileState.absent)
      "" "<?php" "" "<?php" none
  obtain ⟨-, -, -, -, -, c6, -, -, -, -, -⟩ :=
    format_decision_policy_amended errorMsgs (fun _ => FileState.absent)
      "" "<?php ok" "" "<?php" none
  refine ⟨a1, a2 ⟨"ETIMEDOUT", "x"⟩ rfl, ?_, b5 (Or.inr rfl),
    c6 (by decide) (by decide), a8 ⟨"ETIMEDOUT", "y"⟩ (Or.inl rfl),
    by decide⟩
  rw [a3 ⟨"ENOENT", "spawn phpcbf ENOENT"⟩ rfl]
  decide

/-- C2: at most one live validation job exists per document uri in any
state reachable from the initial scheduler state; and whenever `validate`
starts for a uri that already has an entry in the runner map, the old
token source is cancelled and disposed while a fresh, live token source
is stored under that uri. -/
theorem at_most_one_live_job :
    (∀ (evs : List SnifferEv) (uri : String) (t1 t2 : Nat),
      liveFor (runSniffer evs) uri t1 → liveFor (runSniffer evs) uri t2 →
      t1 = t2) ∧
    (∀ (evs : List SnifferEv) (uri : String) (old : Nat),
      lookupRunner (runSniffer evs).runners uri = some old →
      old ∈ (startRun uri (runSniffer evs)).cancelled ∧
      old ∈ (startRun uri (runSniffer evs)).disposed ∧
      lookupRunner (startRun uri (runSniffer evs)).runners uri =
        some (runSniffer evs).nextId ∧
      liveFor (startRun uri (runSniffer evs)) uri
        (runSniffer evs).nextId) := by
  constructor
  · intro evs uri t1 t2 h1 h2
    have hinv := inv_run evs
    have m1 := hinv.liveMapped uri t1 h1
    have m2 := hinv.liveMapped uri t2 h2
    exact Option.some.inj (m1.symm.trans m2)
  · intro evs uri old h
    have hinv := inv_run evs
    have holdlt : old < (runSniffer evs).nextId := hinv.mappedLt uri old h
    rw [startRun_some (runSniffer evs) uri old h]
    refine ⟨List.mem_cons_self _ _, List.mem_cons_self _ _,
      lookup_set_self _ _ _, List.mem_cons_self _ _, ?_, ?_⟩
    · intro hmem
      rcases List.mem_cons.mp hmem with heq | hmem'
      · omega
      · have := hinv.cancelledLt _ hmem'
        omega
    · intro hmem
      rcases List.mem_cons.mp hmem with heq | hmem'
      · omega
      · have := hinv.disposedLt _ hmem'
        omega

/-- C2 witness: starting twice for the same uri from the initial state:
the first token is cancelled and disposed and the second is the single
live one. -/
theorem at_most_one_live_job_witness :
    lookupRunner (runSniffer [SnifferEv.start "a"]).runners "a" =
      some 0 ∧
    0 ∈ (startRun "a" (runSniffer [SnifferEv.start "a"])).cancelled ∧
    0 ∈ (startRun "a" (runSniffer [SnifferEv.start "a"])).disposed ∧
    lookupRunner
      (startRun "a" (runSniffer [SnifferEv.start "a"])).runners "a" =
      some 1 ∧
    liveFor (startRun "a" (runSniffer [SnifferEv.start "a"])) "a" 1 := by
  have h0 : lookupRunner (runSniffer [SnifferEv.start "a"]).runners "a" =
      some 0 := by decide
  have h := at_most_one_live_job.2 [SnifferEv.start "a"] "a" 0 h0
  have hnext : (runSniffer [SnifferEv.start "a"]).nextId = 1 := by decide
  refine ⟨h0, h.1, h.2.1, ?_, ?_⟩
  · rw [← hnext]
    exact h.2.2.1
  · rw [← hnext]
    exact h.2.2.2

end Phpsab
